import Mathlib

/-
Verification development for the build123d part/sketch builder core
(src/src/build123d/build_part.py and src/build_sketch.py).

The Python code is shallowly embedded: pure computations become Lean
functions over exact rationals, the in-place mutation of builder objects
becomes explicit state passing, and Python exceptions become Except
results that carry the state as it stood when the exception was raised
(no field of the builder had been written yet at any raise site, which
the embedding makes checkable).  Geometry-kernel calls (fuse, cut,
intersect, clean, bounding boxes, angles) are opaque: they are either
fields of a GeomKernel record or explicit function parameters, and the
hole-family constructions are recorded syntactically so the arguments
passed to the kernel factories can be inspected.
-/

namespace Build123d

/-- Three dimensional vector with exact rational coordinates. -/
abbrev Vec3 : Type := ℚ × ℚ × ℚ

/-- Componentwise vector addition, mirroring cadquery Vector addition. -/
def vadd (a b : Vec3) : Vec3 := (a.1 + b.1, a.2.1 + b.2.1, a.2.2 + b.2.2)

/-! ## Extrude-Until surface selection (build_part.py lines 494-507) -/

/-- The Until enumeration from build123d.build_common: extrude limit. -/
inductive Until
  | next
  | last
deriving DecidableEq, Repr

/-- Python max over a list of comparables; max of an empty list raises in
Python, callers only apply this to non-empty lists. -/
def listMax : List ℚ → ℚ
  | [] => 0
  | x :: xs => xs.foldl max x

/-- Python min over a list of comparables; min of an empty list raises in
Python, callers only apply this to non-empty lists. -/
def listMin : List ℚ → ℚ
  | [] => 0
  | x :: xs => xs.foldl min x

/-- Sum of the face normals of one shell: the Python loop starting from
Vector(0, 0, 0) and adding f.normalAt(f.Center()) for every face of the
shell (a face is represented by the normal sampled at its center). -/
def sumNormals (shell : List Vec3) : Vec3 := shell.foldl vadd (0, 0, 0)

/-- The surface_dirs list of build_part.py lines 495-500: for every trim
shell, the angle between the aggregate of its face normals and the
extrusion direction plane.zDir.  getAngle is the kernel angle query. -/
def surfaceDirs (getAngle : Vec3 → Vec3 → ℚ) (zDir : Vec3)
    (shells : List (List Vec3)) : List ℚ :=
  shells.map (fun s => getAngle (sumNormals s) zDir)

/-- The surface_index computation of build_part.py lines 501-504:
surface_dirs.index(max(surface_dirs)) when until == Until.NEXT, and
surface_dirs.index(min(surface_dirs)) otherwise. -/
def selectSurfaceIndex (u : Until) (dirs : List ℚ) : Nat :=
  if u = Until.next then dirs.indexOf (listMax dirs)
  else dirs.indexOf (listMin dirs)

/-- The perpendicular-normal filter of build_part.py lines 486-490: drop
candidate trim faces whose normal has zero dot product with the
extrusion direction (they bound no volume along the extrusion axis). -/
def dropPerpendicularFaces (dot : Vec3 → Vec3 → ℚ) (zDir : Vec3)
    (faces : List Vec3) : List Vec3 :=
  faces.filter (fun f => dot f zDir ≠ 0)

theorem foldl_max_mem (xs : List ℚ) : ∀ a : ℚ, xs.foldl max a = a ∨ xs.foldl max a ∈ xs := by
  induction xs with
  | nil => intro a; left; rfl
  | cons x xs ih =>
    intro a
    rw [List.foldl_cons]
    rcases ih (max a x) with h | h
    · rcases max_choice a x with hm | hm
      · left; rw [h, hm]
      · right; rw [h, hm]; exact List.mem_cons_self x xs
    · right; exact List.mem_cons_of_mem x h

theorem le_foldl_max (xs : List ℚ) : ∀ a : ℚ, a ≤ xs.foldl max a ∧ ∀ b ∈ xs, b ≤ xs.foldl max a := by
  induction xs with
  | nil => intro a; exact ⟨le_refl a, by simp⟩
  | cons x xs ih =>
    intro a
    obtain ⟨h1, h2⟩ := ih (max a x)
    refine ⟨le_trans (le_max_left a x) h1, ?_⟩
    intro b hb
    rcases List.mem_cons.mp hb with rfl | hb
    · exact le_trans (le_max_right a b) h1
    · exact h2 b hb

theorem foldl_min_mem (xs : List ℚ) : ∀ a : ℚ, xs.foldl min a = a ∨ xs.foldl min a ∈ xs := by
  induction xs with
  | nil => intro a; left; rfl
  | cons x xs ih =>
    intro a
    rw [List.foldl_cons]
    rcases ih (min a x) with h | h
    · rcases min_choice a x with hm | hm
      · left; rw [h, hm]
      · right; rw [h, hm]; exact List.mem_cons_self x xs
    · right; exact List.mem_cons_of_mem x h

theorem foldl_min_le (xs : List ℚ) : ∀ a : ℚ, xs.foldl min a ≤ a ∧ ∀ b ∈ xs, xs.foldl min a ≤ b := by
  induction xs with
  | nil => intro a; exact ⟨le_refl a, by simp⟩
  | cons x xs ih =>
    intro a
    obtain ⟨h1, h2⟩ := ih (min a x)
    refine ⟨le_trans h1 (min_le_left a x), ?_⟩
    intro b hb
    rcases List.mem_cons.mp hb with rfl | hb
    · exact le_trans h1 (min_le_right a b)
    · exact h2 b hb

theorem listMax_mem {l : List ℚ} (h : l ≠ []) : listMax l ∈ l := by
  cases l with
  | nil => exact absurd rfl h
  | cons x xs =>
    rcases foldl_max_mem xs x with h1 | h1
    · simp [listMax, h1]
    · simp [listMax, h1]

theorem le_listMax {l : List ℚ} {b : ℚ} (hb : b ∈ l) : b ≤ listMax l := by
  cases l with
  | nil => simp at hb
  | cons x xs =>
    rcases List.mem_cons.mp hb with rfl | hb
    · exact (le_foldl_max xs b).1
    · exact (le_foldl_max xs x).2 b hb

theorem listMin_mem {l : List ℚ} (h : l ≠ []) : listMin l ∈ l := by
  cases l with
  | nil => exact absurd rfl h
  | cons x xs =>
    rcases foldl_min_mem xs x with h1 | h1
    · simp [listMin, h1]
    · simp [listMin, h1]

theorem listMin_le {l : List ℚ} {b : ℚ} (hb : b ∈ l) : listMin l ≤ b := by
  cases l with
  | nil => simp at hb
  | cons x xs =>
    rcases List.mem_cons.mp hb with rfl | hb
    · exact (foldl_min_le xs b).1
    · exact (foldl_min_le xs x).2 b hb

/-- C1: in the Extrude-Until path, after grouping the surviving trim faces
into shells and computing the angle between each shell's summed face
normals and the extrusion direction, the selected index is in range, its
angle is the angle of the selected shell, and that angle is the maximum
of all shell angles when until = Next and the minimum when until = Last. -/
theorem extrude_until_selects_extreme_angle
    (getAngle : Vec3 → Vec3 → ℚ) (zDir : Vec3) (shells : List (List Vec3))
    (u : Until) (h : shells ≠ []) :
    selectSurfaceIndex u (surfaceDirs getAngle zDir shells) < shells.length ∧
    (surfaceDirs getAngle zDir shells).getD
        (selectSurfaceIndex u (surfaceDirs getAngle zDir shells)) 0
      = getAngle
          (sumNormals (shells.getD
            (selectSurfaceIndex u (surfaceDirs getAngle zDir shells)) []))
          zDir ∧
    (u = Until.next →
      (surfaceDirs getAngle zDir shells).getD
          (selectSurfaceIndex u (surfaceDirs getAngle zDir shells)) 0
        = listMax (surfaceDirs getAngle zDir shells)) ∧
    (u = Until.last →
      (surfaceDirs getAngle zDir shells).getD
          (selectSurfaceIndex u (surfaceDirs getAngle zDir shells)) 0
        = listMin (surfaceDirs getAngle zDir shells)) := by
  have hne : surfaceDirs getAngle zDir shells ≠ [] := by
    simpa [surfaceDirs, List.map_eq_nil_iff] using h
  have hlen : (surfaceDirs getAngle zDir shells).length = shells.length := by
    simp [surfaceDirs]
  have hsel : selectSurfaceIndex u (surfaceDirs getAngle zDir shells)
      = (if u = Until.next
          then (surfaceDirs getAngle zDir shells).indexOf
                 (listMax (surfaceDirs getAngle zDir shells))
          else (surfaceDirs getAngle zDir shells).indexOf
                 (listMin (surfaceDirs getAngle zDir shells))) := rfl
  have hidx : selectSurfaceIndex u (surfaceDirs getAngle zDir shells)
      < (surfaceDirs getAngle zDir shells).length := by
    rw [hsel]
    cases u with
    | next =>
      rw [if_pos rfl]
      exact List.indexOf_lt_length.mpr (listMax_mem hne)
    | last =>
      rw [if_neg (by simp)]
      exact List.indexOf_lt_length.mpr (listMin_mem hne)
  have hval : (surfaceDirs getAngle zDir shells).getD
        (selectSurfaceIndex u (surfaceDirs getAngle zDir shells)) 0
      = (if u = Until.next then listMax (surfaceDirs getAngle zDir shells)
         else listMin (surfaceDirs getAngle zDir shells)) := by
    cases u with
    | next =>
      rw [hsel, if_pos rfl, if_pos rfl]
      have hm := List.indexOf_lt_length.mpr (listMax_mem hne)
      rw [List.getD_eq_getElem _ _ hm]
      exact List.getElem_indexOf hm
    | last =>
      rw [hsel, if_neg (by simp), if_neg (by simp)]
      have hm := List.indexOf_lt_length.mpr (listMin_mem hne)
      rw [List.getD_eq_getElem _ _ hm]
      exact List.getElem_indexOf hm
  refine ⟨hlen ▸ hidx, ?_, ?_, ?_⟩
  · have hi : selectSurfaceIndex u (surfaceDirs getAngle zDir shells)
        < shells.length := hlen ▸ hidx
    rw [List.getD_eq_getElem _ _ hidx, List.getD_eq_getElem _ _ hi]
    simp [surfaceDirs]
  · intro hu; rw [hval, if_pos hu]
  · intro hu; subst hu; simpa using hval

/-- Witness for C1 on a concrete two-shell fixture: with getAngle taken as
a concrete kernel function, the Next selection attains the maximal angle
and the Last selection the minimal one. -/
theorem extrude_until_selects_extreme_angle_witness :
    (surfaceDirs (fun v _ => v.2.2) (0, 0, 1) [[(0, 0, 1)], [(1, 0, 0)]]).getD
        (selectSurfaceIndex Until.next
          (surfaceDirs (fun v _ => v.2.2) (0, 0, 1) [[(0, 0, 1)], [(1, 0, 0)]])) 0
      = listMax (surfaceDirs (fun v _ => v.2.2) (0, 0, 1) [[(0, 0, 1)], [(1, 0, 0)]]) ∧
    (surfaceDirs (fun v _ => v.2.2) (0, 0, 1) [[(0, 0, 1)], [(1, 0, 0)]]).getD
        (selectSurfaceIndex Until.last
          (surfaceDirs (fun v _ => v.2.2) (0, 0, 1) [[(0, 0, 1)], [(1, 0, 0)]])) 0
      = listMin (surfaceDirs (fun v _ => v.2.2) (0, 0, 1) [[(0, 0, 1)], [(1, 0, 0)]]) :=
  ⟨(extrude_until_selects_extreme_angle (fun v _ => v.2.2) (0, 0, 1)
      [[(0, 0, 1)], [(1, 0, 0)]] Until.next (by simp)).2.2.1 rfl,
   (extrude_until_selects_extreme_angle (fun v _ => v.2.2) (0, 0, 1)
      [[(0, 0, 1)], [(1, 0, 0)]] Until.last (by simp)).2.2.2 rfl⟩

/-! ## Revolve angle normalization (build_part.py lines 647-650) -/

/-- The Python modulo on numbers: x % y = x - y * floor(x / y), whose
result has the sign of the divisor. -/
def pymod (x y : ℚ) : ℚ := x - y * (⌊x / y⌋ : ℤ)

/-- The Revolve angle normalization of build_part.py lines 649-650:
angle = revolution_arc % 360.0, then angle = 360.0 if angle == 0 else
angle. -/
def revolveAngle (arc : ℚ) : ℚ :=
  let a := pymod arc 360
  if a = 0 then 360 else a

theorem pymod_360_eq_fract (x : ℚ) : pymod x 360 = 360 * Int.fract (x / 360) := by
  unfold pymod Int.fract
  rw [mul_sub]
  have h360 : (360 : ℚ) * (x / 360) = x := by
    field_simp
  rw [h360]

theorem pymod_360_nonneg (x : ℚ) : 0 ≤ pymod x 360 := by
  rw [pymod_360_eq_fract]
  exact mul_nonneg (by norm_num) (Int.fract_nonneg _)

theorem pymod_360_lt (x : ℚ) : pymod x 360 < 360 := by
  rw [pymod_360_eq_fract]
  have := Int.fract_lt_one (x / 360)
  nlinarith

/-- C9: the effective Revolve angle is revolution_arc modulo 360, except
that an exact multiple of 360 (0 included) maps to a full 360 degree
revolution; the effective angle always lies in the half-open interval
(0, 360]. -/
theorem revolve_angle_normalization (arc : ℚ) :
    0 < revolveAngle arc ∧ revolveAngle arc ≤ 360 ∧
    (pymod arc 360 ≠ 0 → revolveAngle arc = pymod arc 360) ∧
    (pymod arc 360 = 0 → revolveAngle arc = 360) ∧
    (pymod arc 360 = 0 ↔ ∃ k : ℤ, arc = 360 * k) := by
  have hnn := pymod_360_nonneg arc
  have hlt := pymod_360_lt arc
  refine ⟨?_, ?_, ?_, ?_, ?_⟩
  · by_cases h : pymod arc 360 = 0
    · simp [revolveAngle, h]
    · have : 0 < pymod arc 360 := lt_of_le_of_ne hnn (Ne.symm h)
      simpa [revolveAngle, h] using this
  · by_cases h : pymod arc 360 = 0
    · simp [revolveAngle, h]
    · simp only [revolveAngle, h, if_false]
      exact le_of_lt hlt
  · intro h; simp [revolveAngle, h]
  · intro h; simp [revolveAngle, h]
  · constructor
    · intro h
      refine ⟨⌊arc / 360⌋, ?_⟩
      have h2 : arc - 360 * (⌊arc / 360⌋ : ℤ) = 0 := h
      linarith
    · rintro ⟨k, rfl⟩
      have hq : ((360 : ℚ) * k) / 360 = (k : ℚ) := by
        field_simp
      unfold pymod
      rw [hq]
      simp

/-- Witness for C9: 720 is revolved through a full 360 degrees while 90
stays at 90 degrees, and both effective angles lie in (0, 360]. -/
theorem revolve_angle_normalization_witness :
    revolveAngle 720 = 360 ∧ revolveAngle 90 = 90 ∧
    0 < revolveAngle 90 ∧ revolveAngle 90 ≤ 360 :=
  ⟨(revolve_angle_normalization 720).2.2.2.1
      ((revolve_angle_normalization 720).2.2.2.2.mpr ⟨2, by norm_num⟩),
   by
    have h90 : pymod 90 360 = 90 := by
      unfold pymod
      rw [show ⌊(90 : ℚ) / 360⌋ = 0 from
        Int.floor_eq_zero_iff.mpr (by constructor <;> norm_num)]
      norm_num
    have h := (revolve_angle_normalization 90).2.2.1 (by rw [h90]; norm_num)
    rw [h, h90],
   (revolve_angle_normalization 90).1,
   (revolve_angle_normalization 90).2.1⟩

/-! ## Hole family constructions (build_part.py lines 297-400 and 537-579)

The solids these operations build are recorded syntactically, so the
arguments handed to the kernel factories (Solid.makeCylinder,
Solid.makeCone, Solid.makeBox, fuse, locate) stay inspectable.  The one
kernel query, BoundingBox().DiagonalLength, is a function parameter. -/

/-- Syntactic record of a kernel solid construction.  Λ is the opaque
type of locations from the placement context. -/
inductive PSolid (Λ : Type)
  | makeCylinder (radius height : ℚ) (pnt dir : Vec3) (arc : ℚ)
  | makeCone (radius1 radius2 height : ℚ) (pnt dir : Vec3)
  | makeBox (length width height : ℚ)
  | fuse (a b : PSolid Λ)
  | locate (s : PSolid Λ) (loc : Λ)
deriving DecidableEq, Repr

/-- Python truthiness of an optional numeric depth argument: a depth of
None and a depth of 0.0 are both falsy, so a bare `if not depth` selects
the inferred-depth branch for both. -/
def pyFalsy : Option ℚ → Bool
  | none => true
  | some d => decide (d = 0)

/-- The probe computation shared by the hole family:
context.part.fuse(Solid.makeBox(1, 1, 1).locate(location))
.BoundingBox().DiagonalLength, where bbDiag is the kernel bounding-box
diagonal query. -/
def probeDiag {Λ : Type} (bbDiag : PSolid Λ → ℚ) (part : PSolid Λ) (loc : Λ) : ℚ :=
  bbDiag (PSolid.fuse part (PSolid.locate (PSolid.makeBox 1 1 1) loc))

/-- The new_solids loop of Hole.__init__ (build_part.py lines 562-577):
per location, hole_depth is twice the probe diagonal when depth is falsy
(else depth itself), hole_start is (0, 0, hole_depth / 2) when depth is
falsy (else the origin), and the appended solid is a downward cylinder of
that depth located at the location. -/
def holeNewSolids {Λ : Type} (bbDiag : PSolid Λ → ℚ) (part : PSolid Λ)
    (radius : ℚ) (depth : Option ℚ) (locs : List Λ) : List (PSolid Λ) :=
  locs.foldl
    (fun acc loc =>
      let hole_depth : ℚ :=
        if pyFalsy depth then 2 * probeDiag bbDiag part loc else depth.getD 0
      let hole_start : Vec3 :=
        if pyFalsy depth then (0, 0, hole_depth / 2) else (0, 0, 0)
      acc ++ [PSolid.locate
        (PSolid.makeCylinder radius hole_depth hole_start (0, 0, -1) 360) loc])
    []

/-- The new_solids loop of CounterBoreHole.__init__ (build_part.py lines
322-343): per location, hole_depth is the probe diagonal when depth is
falsy (else depth itself), and the appended solid is the downward hole
cylinder fused with the counter-bore cylinder, located at the location.
Solid.makeCylinder defaults to a 360 degree arc. -/
def counterBoreNewSolids {Λ : Type} (bbDiag : PSolid Λ → ℚ) (part : PSolid Λ)
    (radius counter_bore_radius counter_bore_depth : ℚ) (depth : Option ℚ)
    (locs : List Λ) : List (PSolid Λ) :=
  locs.foldl
    (fun acc loc =>
      let hole_depth : ℚ :=
        if pyFalsy depth then probeDiag bbDiag part loc else depth.getD 0
      acc ++ [PSolid.locate
        (PSolid.fuse
          (PSolid.makeCylinder radius hole_depth (0, 0, 0) (0, 0, -1) 360)
          (PSolid.makeCylinder counter_bore_radius
            (counter_bore_depth + hole_depth) (0, 0, -counter_bore_depth)
            (0, 0, 1) 360))
        loc])
    []

/-- The new_solids loop of CounterSinkHole.__init__ (build_part.py lines
372-398).  Careful translation point: line 381 REBINDS new_solids to a
fresh one-element list on every iteration of the location loop instead of
appending to it, so the accumulator is discarded; the fold below ignores
its accumulator for exactly that reason.  cone_height is
counter_sink_radius / tan(radians(counter_sink_angle / 2)); the
trigonometry is a kernel-math parameter tanRad modelling
tan(radians(x)). -/
def counterSinkNewSolids {Λ : Type} (tanRad : ℚ → ℚ) (bbDiag : PSolid Λ → ℚ)
    (part : PSolid Λ) (radius counter_sink_radius : ℚ) (depth : Option ℚ)
    (counter_sink_angle : ℚ) (locs : List Λ) : List (PSolid Λ) :=
  locs.foldl
    (fun _acc loc =>
      let hole_depth : ℚ :=
        if pyFalsy depth then probeDiag bbDiag part loc else depth.getD 0
      let cone_height : ℚ := counter_sink_radius / tanRad (counter_sink_angle / 2)
      [PSolid.locate
        (PSolid.fuse
          (PSolid.fuse
            (PSolid.makeCylinder radius hole_depth (0, 0, 0) (0, 0, -1) 360)
            (PSolid.makeCone counter_sink_radius 0 cone_height (0, 0, 0) (0, 0, -1)))
          (PSolid.makeCylinder counter_sink_radius hole_depth (0, 0, 0) (0, 0, 1) 360))
        loc])
    []

theorem foldl_append_singleton {Λ β : Type} (f : Λ → β) (l : List Λ) :
    ∀ acc : List β, l.foldl (fun a x => a ++ [f x]) acc = acc ++ l.map f := by
  induction l with
  | nil => intro acc; simp
  | cons x xs ih =>
    intro acc
    rw [List.foldl_cons, ih, List.map_cons]
    simp

theorem foldl_rebind_singleton {Λ β : Type} (g : Λ → β) (l : List Λ) :
    ∀ acc : List β, l.foldl (fun _ x => [g x]) acc
      = ((l.getLast?).map (fun x => [g x])).getD acc := by
  induction l with
  | nil => intro acc; rfl
  | cons x xs ih =>
    intro acc
    rw [List.foldl_cons, ih]
    cases xs with
    | nil => rfl
    | cons y ys =>
      rw [List.getLast?_cons_cons]
      rcases h : (y :: ys).getLast? with _ | z
      · exact absurd h (by simp)
      · simp

/-- C5: with no explicit depth, each hole-family placement uses the
diagonal of the bounding box of the part fused with a unit probe box at
that placement: Hole doubles it and starts the downward cylinder at half
the doubled depth above the nominal surface (so it straddles the part),
while CounterBoreHole and CounterSinkHole use the diagonal directly as a
one-sided depth starting at the surface. -/
theorem hole_depth_inference {Λ : Type} (tanRad : ℚ → ℚ) (bbDiag : PSolid Λ → ℚ)
    (part : PSolid Λ) (r cbr cbd csr csa : ℚ) (locs : List Λ) :
    holeNewSolids bbDiag part r none locs
      = locs.map (fun loc => PSolid.locate
          (PSolid.makeCylinder r (2 * probeDiag bbDiag part loc)
            (0, 0, probeDiag bbDiag part loc) (0, 0, -1) 360) loc) ∧
    counterBoreNewSolids bbDiag part r cbr cbd none locs
      = locs.map (fun loc => PSolid.locate
          (PSolid.fuse
            (PSolid.makeCylinder r (probeDiag bbDiag part loc) (0, 0, 0) (0, 0, -1) 360)
            (PSolid.makeCylinder cbr (cbd + probeDiag bbDiag part loc)
              (0, 0, -cbd) (0, 0, 1) 360))
          loc) ∧
    (∀ lastLoc ∈ locs.getLast?,
      counterSinkNewSolids tanRad bbDiag part r csr none csa locs
        = [PSolid.locate
            (PSolid.fuse
              (PSolid.fuse
                (PSolid.makeCylinder r (probeDiag bbDiag part lastLoc) (0, 0, 0)
                  (0, 0, -1) 360)
                (PSolid.makeCone csr 0 (csr / tanRad (csa / 2)) (0, 0, 0) (0, 0, -1)))
              (PSolid.makeCylinder csr (probeDiag bbDiag part lastLoc) (0, 0, 0)
                (0, 0, 1) 360))
            lastLoc]) := by
  refine ⟨?_, ?_, ?_⟩
  · unfold holeNewSolids
    rw [foldl_append_singleton]
    simp only [pyFalsy, if_true, List.nil_append]
    congr 1
    funext loc
    norm_num
  · unfold counterBoreNewSolids
    rw [foldl_append_singleton]
    simp [pyFalsy]
  · intro lastLoc hlast
    rw [Option.mem_def] at hlast
    unfold counterSinkNewSolids
    rw [foldl_rebind_singleton, hlast]
    simp [pyFalsy]

/-- Witness for C5 at a concrete kernel diagonal and a single placement:
the Hole cylinder is twice the probe diagonal deep and starts half that
above the surface, and the counter-sink hole cylinder is one probe
diagonal deep starting at the surface. -/
theorem hole_depth_inference_witness :
    holeNewSolids (fun _ => (3 : ℚ)) (PSolid.makeBox 1 1 1) 1 none [10]
      = [10].map (fun loc => PSolid.locate
          (PSolid.makeCylinder 1
            (2 * probeDiag (fun _ => (3 : ℚ)) (PSolid.makeBox 1 1 1) loc)
            (0, 0, probeDiag (fun _ => (3 : ℚ)) (PSolid.makeBox 1 1 1) loc)
            (0, 0, -1) 360) loc) ∧
    counterSinkNewSolids (fun q => q) (fun _ => (3 : ℚ)) (PSolid.makeBox 1 1 1)
        1 2 none 82 [10]
      = [PSolid.locate
          (PSolid.fuse
            (PSolid.fuse
              (PSolid.makeCylinder 1
                (probeDiag (fun _ => (3 : ℚ)) (PSolid.makeBox 1 1 1) 10)
                (0, 0, 0) (0, 0, -1) 360)
              (PSolid.makeCone 2 0 ((2 : ℚ) / (82 / 2)) (0, 0, 0) (0, 0, -1)))
            (PSolid.makeCylinder 2
              (probeDiag (fun _ => (3 : ℚ)) (PSolid.makeBox 1 1 1) 10)
              (0, 0, 0) (0, 0, 1) 360))
          10] :=
  ⟨(hole_depth_inference (fun q => q) (fun _ => 3) (PSolid.makeBox 1 1 1)
      1 0 0 2 82 [10]).1,
   (hole_depth_inference (fun q => q) (fun _ => 3) (PSolid.makeBox 1 1 1)
      1 0 0 2 82 [10]).2.2 10 (Option.mem_def.mpr rfl)⟩

/-- C10: an explicit depth of exactly 0.0 is falsy in Python, so Hole and
CounterBoreHole treat it exactly like an omitted depth: the through-part
depth is inferred from the bounding-box heuristic instead of cutting a
zero-depth hole. -/
theorem zero_depth_treated_as_through {Λ : Type} (bbDiag : PSolid Λ → ℚ)
    (part : PSolid Λ) (r cbr cbd : ℚ) (locs : List Λ) :
    holeNewSolids bbDiag part r (some 0) locs
      = holeNewSolids bbDiag part r none locs ∧
    counterBoreNewSolids bbDiag part r cbr cbd (some 0) locs
      = counterBoreNewSolids bbDiag part r cbr cbd none locs := by
  have hf : pyFalsy (some 0) = pyFalsy none := by decide
  constructor
  · unfold holeNewSolids
    rw [hf]
    simp
  · unfold counterBoreNewSolids
    rw [hf]
    simp

/-- A two-entry active placement set used to exercise the per-location
loops of the counter-sink and counter-bore operations. -/
def twoLocations : List Nat := [10, 20]

/-- C7 (refuted, code bug): on a two-location placement set,
CounterSinkHole.__init__ rebinds new_solids inside its location loop
(build_part.py line 381) instead of appending, so only the LAST
location's counter-sink solid reaches the single merge call, while
CounterBoreHole builds one solid per location as the claim describes. -/
theorem countersink_builds_last_location_only :
    twoLocations.length = 2 ∧
    (counterSinkNewSolids (fun q => q) (fun _ => 1) (PSolid.makeBox 1 1 1)
        1 2 none 82 twoLocations).length = 1 ∧
    counterSinkNewSolids (fun q => q) (fun _ => 1) (PSolid.makeBox 1 1 1)
        1 2 none 82 twoLocations
      = counterSinkNewSolids (fun q => q) (fun _ => 1) (PSolid.makeBox 1 1 1)
          1 2 none 82 [20] ∧
    (counterBoreNewSolids (fun _ => 1) (PSolid.makeBox 1 1 1)
        1 2 1 none twoLocations).length = 2 := by
  refine ⟨rfl, by decide, ?_, by decide⟩
  unfold counterSinkNewSolids
  rw [foldl_rebind_singleton, foldl_rebind_singleton]
  rfl

/-! ## BuildPart state and the merge algorithm (build_part.py lines 53-290)

Shapes, planes and locations are opaque type parameters; the geometry
kernel operations the merge algorithm calls are fields of a GeomKernel
record.  Topology queries return lists of stable element identities
(naturals), matching the structural identity the Python set arithmetic
relies on.  In-place mutation of the builder becomes explicit state
passing; a Python raise becomes an Except error carrying the builder
state as it stood at the raise site. -/

/-- The kernel operations used by BuildPart: boolean ops, cleanup,
compound wrapping, placement, and topology-identity queries. -/
structure GeomKernel (α π Λ : Type) where
  fuse : α → List α → α
  cut : α → List α → α
  intersect : α → List α → α
  clean : α → α
  makeCompound : List α → α
  moved : α → Λ → α
  vertexIds : α → List Nat
  edgeIds : α → List Nat
  faceIds : α → List Nat
  solidIds : α → List Nat

/-- The Mode enumeration from build123d.build_common, plus a constructor
other standing for any runtime value outside the enumeration (Python is
dynamically typed, so any value can be passed as mode; the docstring of
_add_to_context documents a defensive ValueError for that case).  The
constructor priv renders Mode.PRIVATE. -/
inductive Mode
  | add
  | subtract
  | intersect
  | replace
  | construction
  | priv
  | other
deriving DecidableEq, Repr

/-- The mutable fields of a BuildPart instance that _add_to_context and
_add_to_pending touch.  The last_* diffs are sets in Python
(list(post_set - pre_set), in unspecified order), hence Finsets here. -/
structure PartState (α π : Type) where
  part : Option α
  pending_faces : List α
  pending_face_planes : List π
  pending_edges : List α
  pending_edge_planes : List π
  last_vertices : Finset Nat
  last_edges : Finset Nat
  last_faces : Finset Nat
  last_solids : Finset Nat
deriving DecidableEq

/-- The active placement context consumed by _add_to_pending:
LocationList._get_context().locations and .planes. -/
structure LocCtx (Λ π : Type) where
  locations : List Λ
  planes : List π
deriving DecidableEq

/-- An argument to _add_to_context, after runtime kind dispatch.  A
compound carries the results of get_type(Edge), get_type(Face) and
get_type(Solid); the get_type(Wire) path is not modelled (no claim
involves wires, and line 225 extends new_edges with whole lists rather
than edges).  The constructor other stands for any shape kind the
isinstance chain rejects (line 229 raises ValueError for it). -/
inductive BObj (α : Type)
  | edge (e : α)
  | face (f : α)
  | solid (s : α)
  | compound (edges faces solids : List α)
  | other
deriving DecidableEq, Repr

/-- The solids an object contributes to new_solids during partitioning. -/
def objSolids {α : Type} : BObj α → List α
  | BObj.solid s => [s]
  | BObj.compound _ _ ss => ss
  | _ => []

/-- The partition loop of _add_to_context (lines 215-232): splits the
inputs into new_faces, new_edges, new_solids in input order; an object of
unaccepted kind raises ValueError, rendered as none. -/
def partitionObjs {α : Type} : List (BObj α) → Option (List α × List α × List α)
  | [] => some ([], [], [])
  | BObj.face f :: rest =>
    (partitionObjs rest).map (fun t => (f :: t.1, t.2.1, t.2.2))
  | BObj.solid s :: rest =>
    (partitionObjs rest).map (fun t => (t.1, t.2.1, s :: t.2.2))
  | BObj.edge e :: rest =>
    (partitionObjs rest).map (fun t => (t.1, e :: t.2.1, t.2.2))
  | BObj.compound es fs ss :: rest =>
    (partitionObjs rest).map (fun t => (fs ++ t.1, es ++ t.2.1, ss ++ t.2.2))
  | BObj.other :: _ => none

/-- Vertex identities of the accumulated part; an absent part has empty
topology of every kind (lines 237-240 and 271-274). -/
def topoVertices {α π Λ : Type} (K : GeomKernel α π Λ) : Option α → Finset Nat
  | none => ∅
  | some p => (K.vertexIds p).toFinset

/-- Edge identities of the accumulated part, empty when absent. -/
def topoEdges {α π Λ : Type} (K : GeomKernel α π Λ) : Option α → Finset Nat
  | none => ∅
  | some p => (K.edgeIds p).toFinset

/-- Face identities of the accumulated part, empty when absent. -/
def topoFaces {α π Λ : Type} (K : GeomKernel α π Λ) : Option α → Finset Nat
  | none => ∅
  | some p => (K.faceIds p).toFinset

/-- Solid identities of the accumulated part, empty when absent. -/
def topoSolids {α π Λ : Type} (K : GeomKernel α π Λ) : Option α → Finset Nat
  | none => ∅
  | some p => (K.solidIds p).toFinset

/-- One inner step of _add_to_pending (lines 172-186): localize the
object at one (location, plane) pair and append it, with its plane, to
the face or edge pending pair of lists. -/
def pendOne {α π Λ : Type} (moved : α → Λ → α) (isFace : Bool) (obj : α)
    (st : PartState α π) (lp : Λ × π) : PartState α π :=
  if isFace then
    { st with pending_faces := st.pending_faces ++ [moved obj lp.1],
              pending_face_planes := st.pending_face_planes ++ [lp.2] }
  else
    { st with pending_edges := st.pending_edges ++ [moved obj lp.1],
              pending_edge_planes := st.pending_edge_planes ++ [lp.2] }

/-- The _add_to_pending method (lines 165-186) applied to a homogeneous
run of objects (_add_to_context calls it once for the edges and once for
the faces): every object is localized at every active (location, plane)
pair and appended together with that plane. -/
def addToPendingObjs {α π Λ : Type} (moved : α → Λ → α) (lctx : LocCtx Λ π)
    (isFace : Bool) (objs : List α) (s : PartState α π) : PartState α π :=
  objs.foldl
    (fun st obj => (lctx.locations.zip lctx.planes).foldl (pendOne moved isFace obj) st)
    s

/-- The errors _add_to_context can raise: RuntimeError at lines 257 and
261, and the ValueError of the partition loop at line 229. -/
inductive MergeError
  | nothingToSubtractFrom
  | nothingToIntersectWith
  | notAccepted
deriving DecidableEq, Repr

/-- The boolean-combination step of _add_to_context (lines 247-264),
reached only when new_solids is non-empty (n0 :: nrest).  Mode.ADD with
no existing part takes the single new solid as the part, or pops the last
solid and fuses the rest into it; with an existing part it fuses and
cleans.  SUBTRACT and INTERSECT raise when no part exists (the carried
state s is the builder state at the raise, still untouched), else cut or
intersect and clean.  REPLACE wraps the new solids as a compound and
cleans.  CONSTRUCTION and any value outside the enumeration match no
branch of the if/elif chain: the part is left as is and nothing is
raised, the documented ValueError for an invalid mode notwithstanding. -/
def integrate {α π Λ : Type} (K : GeomKernel α π Λ) (mode : Mode)
    (part : Option α) (n0 : α) (nrest : List α) (s : PartState α π) :
    Except (MergeError × PartState α π) (Option α) :=
  match mode with
  | Mode.add =>
    match part with
    | none =>
      match nrest with
      | [] => Except.ok (some n0)
      | _ :: _ =>
        Except.ok (some (K.fuse (nrest.getLastD n0) ((n0 :: nrest).dropLast)))
    | some p => Except.ok (some (K.clean (K.fuse p (n0 :: nrest))))
  | Mode.subtract =>
    match part with
    | none => Except.error (MergeError.nothingToSubtractFrom, s)
    | some p => Except.ok (some (K.clean (K.cut p (n0 :: nrest))))
  | Mode.intersect =>
    match part with
    | none => Except.error (MergeError.nothingToIntersectWith, s)
    | some p => Except.ok (some (K.clean (K.intersect p (n0 :: nrest))))
  | Mode.replace => Except.ok (some (K.clean (K.makeCompound (n0 :: nrest))))
  | _ => Except.ok part

/-- The guard and dispatch around the boolean chain (lines 242-264): with
no new solids the part is untouched, else the chain runs on the non-empty
solid list. -/
def booleanStep {α π Λ : Type} (K : GeomKernel α π Λ) (mode : Mode)
    (newSolids : List α) (s : PartState α π) :
    Except (MergeError × PartState α π) (Option α) :=
  match newSolids with
  | [] => Except.ok s.part
  | n0 :: nrest => integrate K mode s.part n0 nrest s

/-- The tail of _add_to_context after a successful boolean step (lines
271-281): store the post-merge part, record the four per-kind set
differences against the pre-merge topology (the pre snapshot of lines
237-240 is computed from s, which the boolean step never wrote), then
append the new edges and then the new faces to the pending lists. -/
def finishMerge {α π Λ : Type} (K : GeomKernel α π Λ) (lctx : LocCtx Λ π)
    (newEdges newFaces : List α) (part1 : Option α) (s : PartState α π) :
    PartState α π :=
  let s1 : PartState α π :=
    { s with
      part := part1,
      last_vertices := topoVertices K part1 \ topoVertices K s.part,
      last_edges := topoEdges K part1 \ topoEdges K s.part,
      last_faces := topoFaces K part1 \ topoFaces K s.part,
      last_solids := topoSolids K part1 \ topoSolids K s.part }
  addToPendingObjs K.moved lctx true newFaces
    (addToPendingObjs K.moved lctx false newEdges s1)

/-- The _add_to_context method (lines 188-281).  Mode.PRIVATE discards
everything.  Otherwise: partition the inputs (ValueError on an unaccepted
kind, before any field of the builder is written); if faces_to_pending is
false move the faces into new_solids; run the boolean step (its raises
also happen before any write, so the error carries the input state
unchanged); then record the diffs and the pending appends. -/
def addToContext {α π Λ : Type} (K : GeomKernel α π Λ) (lctx : LocCtx Λ π)
    (objects : List (BObj α)) (facesToPending : Bool) (mode : Mode)
    (s : PartState α π) :
    Except (MergeError × PartState α π) (PartState α π) :=
  if mode = Mode.priv then Except.ok s
  else
    match partitionObjs objects with
    | none => Except.error (MergeError.notAccepted, s)
    | some (newFaces0, newEdges, newSolids0) =>
      match booleanStep K mode
          (if facesToPending then newSolids0 else newSolids0 ++ newFaces0) s with
      | Except.error e => Except.error e
      | Except.ok part1 =>
        Except.ok (finishMerge K lctx newEdges
          (if facesToPending then newFaces0 else []) part1 s)

/-! ## Pending-list consumption by the solid-producing operations -/

/-- Extrude's consumption of the pending faces when no explicit face is
given (build_part.py lines 441-444): both the face list and its paired
plane list are cleared. -/
def extrudeConsumePending {α π : Type} (s : PartState α π) : PartState α π :=
  { s with pending_faces := [], pending_face_planes := [] }

/-- Loft's consumption of the pending faces when no sections are given
(build_part.py lines 600-602): only pending_faces is cleared, the paired
pending_face_planes list is left as it was. -/
def loftConsumePending {α π : Type} (s : PartState α π) : PartState α π :=
  { s with pending_faces := [] }

/-- Revolve's consumption of the pending faces when no profiles are given
(build_part.py lines 652-654): only pending_faces is cleared. -/
def revolveConsumePending {α π : Type} (s : PartState α π) : PartState α π :=
  { s with pending_faces := [] }

/-- Sweep's consumption of the pending faces when no sections are given
(build_part.py lines 788-792): only pending_faces is cleared. -/
def sweepConsumePending {α π : Type} (s : PartState α π) : PartState α π :=
  { s with pending_faces := [] }

/-! ## Lemmas about the merge algorithm -/

theorem foldl_preserve {σ β γ : Type} (f : σ → β → σ) (g : σ → γ)
    (hf : ∀ s b, g (f s b) = g s) :
    ∀ (l : List β) (s : σ), g (l.foldl f s) = g s := by
  intro l
  induction l with
  | nil => intro s; rfl
  | cons x xs ih => intro s; rw [List.foldl_cons, ih, hf]

/-- The fields of a BuildPart state that _add_to_pending never writes. -/
def coreOf {α π : Type} (s : PartState α π) :
    Option α × Finset Nat × Finset Nat × Finset Nat × Finset Nat :=
  (s.part, s.last_vertices, s.last_edges, s.last_faces, s.last_solids)

theorem pendOne_core {α π Λ : Type} (mv : α → Λ → α) (b : Bool) (o : α)
    (st : PartState α π) (lp : Λ × π) : coreOf (pendOne mv b o st lp) = coreOf st := by
  unfold pendOne
  split <;> rfl

theorem addToPendingObjs_core {α π Λ : Type} (mv : α → Λ → α) (lctx : LocCtx Λ π)
    (b : Bool) (objs : List α) (s : PartState α π) :
    coreOf (addToPendingObjs mv lctx b objs s) = coreOf s := by
  unfold addToPendingObjs
  refine foldl_preserve _ coreOf ?_ objs s
  intro st o
  exact foldl_preserve _ coreOf (fun st lp => pendOne_core mv b o st lp) _ st

theorem finishMerge_core {α π Λ : Type} (K : GeomKernel α π Λ) (lctx : LocCtx Λ π)
    (es fs : List α) (part1 : Option α) (s : PartState α π) :
    coreOf (finishMerge K lctx es fs part1 s)
      = (part1,
         topoVertices K part1 \ topoVertices K s.part,
         topoEdges K part1 \ topoEdges K s.part,
         topoFaces K part1 \ topoFaces K s.part,
         topoSolids K part1 \ topoSolids K s.part) := by
  unfold finishMerge
  rw [addToPendingObjs_core, addToPendingObjs_core]
  rfl

theorem partition_isSome {α : Type} :
    ∀ objects : List (BObj α), (∀ o ∈ objects, o ≠ BObj.other) →
      ∃ t, partitionObjs objects = some t := by
  intro objects
  induction objects with
  | nil => intro _; exact ⟨([], [], []), rfl⟩
  | cons o os ih =>
    intro h
    obtain ⟨t, ht⟩ := ih (fun x hx => h x (List.mem_cons_of_mem o hx))
    cases o with
    | edge e => exact ⟨_, by rw [partitionObjs, ht]; rfl⟩
    | face f => exact ⟨_, by rw [partitionObjs, ht]; rfl⟩
    | solid x => exact ⟨_, by rw [partitionObjs, ht]; rfl⟩
    | compound a b c => exact ⟨_, by rw [partitionObjs, ht]; rfl⟩
    | other => exact absurd rfl (h BObj.other (List.mem_cons_self _ _))

theorem partition_ss_eq {α : Type} :
    ∀ (objects : List (BObj α)) (t : List α × List α × List α),
      partitionObjs objects = some t →
      t.2.2 = (objects.map objSolids).foldr (fun a b => a ++ b) [] := by
  intro objects
  induction objects with
  | nil =>
    intro t hp
    cases hp
    rfl
  | cons o os ih =>
    intro t hp
    cases o with
    | edge e =>
      rw [partitionObjs] at hp
      rcases Option.map_eq_some'.mp hp with ⟨u, hu, heq⟩
      rw [← heq]
      simpa [objSolids] using ih u hu
    | face f =>
      rw [partitionObjs] at hp
      rcases Option.map_eq_some'.mp hp with ⟨u, hu, heq⟩
      rw [← heq]
      simpa [objSolids] using ih u hu
    | solid x =>
      rw [partitionObjs] at hp
      rcases Option.map_eq_some'.mp hp with ⟨u, hu, heq⟩
      rw [← heq]
      simpa [objSolids] using ih u hu
    | compound a b c =>
      rw [partitionObjs] at hp
      rcases Option.map_eq_some'.mp hp with ⟨u, hu, heq⟩
      rw [← heq]
      simp only [objSolids, List.map_cons, List.foldr_cons]
      rw [ih u hu]
    | other => exact absurd hp (by rw [partitionObjs]; simp)

theorem allSolids_ne_nil {α : Type} :
    ∀ (objects : List (BObj α)) (w : BObj α), w ∈ objects → objSolids w ≠ [] →
      (objects.map objSolids).foldr (fun a b => a ++ b) [] ≠ [] := by
  intro objects
  induction objects with
  | nil => intro w hw _; simp at hw
  | cons o os ih =>
    intro w hw hwsol
    rw [List.map_cons, List.foldr_cons]
    rcases List.mem_cons.mp hw with rfl | hw2
    · intro hc
      exact hwsol (List.append_eq_nil.mp hc).1
    · intro hc
      exact ih w hw2 hwsol (List.append_eq_nil.mp hc).2

theorem partition_solids_ne_nil {α : Type}
    (objects : List (BObj α)) (fs es ss : List α)
    (hp : partitionObjs objects = some (fs, es, ss))
    (hex : ∃ o ∈ objects, objSolids o ≠ []) : ss ≠ [] := by
  obtain ⟨w, hw, hwsol⟩ := hex
  have h1 : ss = (objects.map objSolids).foldr (fun a b => a ++ b) [] :=
    partition_ss_eq objects (fs, es, ss) hp
  rw [h1]
  exact allSolids_ne_nil objects w hw hwsol

/-- C3: a Subtract or Intersect merge whose inputs contain at least one
solid, issued while no accumulated solid exists, raises
NothingToSubtractFrom (resp. NothingToIntersectWith); the carried state
is exactly the input state, so the part, the pending face/edge lists and
the last-operation diffs are unchanged by the failed call. -/
theorem subtract_intersect_require_existing_part {α π Λ : Type}
    (K : GeomKernel α π Λ) (lctx : LocCtx Λ π) (objects : List (BObj α))
    (ftp : Bool) (s : PartState α π)
    (hpart : s.part = none)
    (hacc : ∀ o ∈ objects, o ≠ BObj.other)
    (hsolid : ∃ o ∈ objects, objSolids o ≠ []) :
    addToContext K lctx objects ftp Mode.subtract s
      = Except.error (MergeError.nothingToSubtractFrom, s) ∧
    addToContext K lctx objects ftp Mode.intersect s
      = Except.error (MergeError.nothingToIntersectWith, s) := by
  obtain ⟨⟨fs, es, ss⟩, hp⟩ := partition_isSome objects hacc
  have hss : ss ≠ [] := partition_solids_ne_nil objects fs es ss hp hsolid
  have hns : (if ftp then ss else ss ++ fs) ≠ [] := by
    cases ftp with
    | false =>
      intro hc
      rw [if_neg (by simp)] at hc
      exact hss (List.append_eq_nil.mp hc).1
    | true => simpa using hss
  constructor
  · unfold addToContext
    rw [if_neg (by simp), hp]
    rcases hc : (if ftp then ss else ss ++ fs) with _ | ⟨n0, nrest⟩
    · exact absurd hc hns
    · simp only [booleanStep, hc, integrate, hpart]
  · unfold addToContext
    rw [if_neg (by simp), hp]
    rcases hc : (if ftp then ss else ss ++ fs) with _ | ⟨n0, nrest⟩
    · exact absurd hc hns
    · simp only [booleanStep, hc, integrate, hpart]

/-- C4: every non-Private merge that completes stores, for each of the
four kinds, exactly the set difference between the post-merge topology of
the accumulated solid and its pre-merge topology as the last-operation
diff, with an absent solid contributing the empty set of every kind. -/
theorem merge_diff_is_post_minus_pre {α π Λ : Type}
    (K : GeomKernel α π Λ) (lctx : LocCtx Λ π) (objects : List (BObj α))
    (ftp : Bool) (mode : Mode) (s sFinal : PartState α π)
    (hmode : mode ≠ Mode.priv)
    (hok : addToContext K lctx objects ftp mode s = Except.ok sFinal) :
    sFinal.last_vertices = topoVertices K sFinal.part \ topoVertices K s.part ∧
    sFinal.last_edges = topoEdges K sFinal.part \ topoEdges K s.part ∧
    sFinal.last_faces = topoFaces K sFinal.part \ topoFaces K s.part ∧
    sFinal.last_solids = topoSolids K sFinal.part \ topoSolids K s.part := by
  unfold addToContext at hok
  rw [if_neg hmode] at hok
  rcases hp : partitionObjs objects with _ | ⟨⟨fs, es, ss⟩⟩
  · simp only [hp] at hok
    exact absurd hok (by simp)
  · simp only [hp] at hok
    rcases hb : booleanStep K mode (if ftp then ss else ss ++ fs) s with e | part1
    · simp only [hb] at hok
      exact absurd hok (by simp)
    · simp only [hb] at hok
      have hs3 : finishMerge K lctx es (if ftp then fs else []) part1 s = sFinal := by
        simpa using hok
      have hc := finishMerge_core K lctx es (if ftp then fs else []) part1 s
      rw [hs3] at hc
      have hpart : sFinal.part = part1 := congrArg (fun t => t.1) hc
      refine ⟨?_, ?_, ?_, ?_⟩
      · have := congrArg (fun t => t.2.1) hc
        simpa [coreOf, hpart] using this
      · have := congrArg (fun t => t.2.2.1) hc
        simpa [coreOf, hpart] using this
      · have := congrArg (fun t => t.2.2.2.1) hc
        simpa [coreOf, hpart] using this
      · have := congrArg (fun t => t.2.2.2.2) hc
        simpa [coreOf, hpart] using this

/-! ## BuildSketch (build_sketch.py) -/

/-- The fields of a BuildSketch instance the modelled methods touch;
__init__ also sets a locations list, which neither add_to_context nor
__exit__ reads or writes, so it is omitted here. -/
structure SketchState (α : Type) where
  surface : α
  pending_edges : List α
  mode : Mode
deriving DecidableEq

/-- An argument to BuildSketch.add_to_context: the isinstance filters at
build_sketch.py lines 62-63 keep exactly the Face and Edge inputs. -/
inductive SObj (α : Type)
  | edge (e : α)
  | face (f : α)
deriving DecidableEq, Repr

/-- The ValueError raised at build_sketch.py line 80 for a mode the
add_to_context chain does not handle. -/
inductive SketchError
  | invalidMode
deriving DecidableEq, Repr

/-- BuildSketch.add_to_context (build_sketch.py lines 58-82), operating
on the context stack with its top element at the head.  PRIVATE is
excluded by the guard on line 60; an empty stack means no builder state
is touched.  ADDITION, SUBTRACTION and INTERSECTION fuse/cut/intersect
the new faces into the top surface and clean; CONSTRUCTION (and the dead
PRIVATE elif arm) leave the surface alone; any other value (REPLACE is
not in this chain, nor any value outside the enumeration) raises
ValueError f-string Invalid mode before the pending-edge extension on
line 82 runs. -/
def sketchAddToContext {α π Λ : Type} (K : GeomKernel α π Λ)
    (objects : List (SObj α)) (mode : Mode) (stack : List (SketchState α)) :
    Except SketchError (List (SketchState α)) :=
  if mode = Mode.priv then Except.ok stack
  else
    match stack with
    | [] => Except.ok []
    | top :: rest =>
      let newFaces := objects.filterMap
        (fun o => match o with | SObj.face f => some f | _ => none)
      let newEdges := objects.filterMap
        (fun o => match o with | SObj.edge e => some e | _ => none)
      match mode with
      | Mode.add =>
        Except.ok ({ top with
          surface := K.clean (K.fuse top.surface newFaces),
          pending_edges := top.pending_edges ++ newEdges } :: rest)
      | Mode.subtract =>
        Except.ok ({ top with
          surface := K.clean (K.cut top.surface newFaces),
          pending_edges := top.pending_edges ++ newEdges } :: rest)
      | Mode.intersect =>
        Except.ok ({ top with
          surface := K.clean (K.intersect top.surface newFaces),
          pending_edges := top.pending_edges ++ newEdges } :: rest)
      | Mode.construction | Mode.priv =>
        Except.ok ({ top with
          pending_edges := top.pending_edges ++ newEdges } :: rest)
      | _ => Except.error SketchError.invalidMode

/-- An entry of the cross-builder context stack popped by
BuildSketch.__exit__.  Modelled from the spec: the Build3D constructor
stands for the enclosing 3-D builder (its class lives in the missing
build123d_common module), reduced to the pending-edge list that the
documented fold on scope exit would extend. -/
inductive CtxEntry (α : Type)
  | sketch (s : SketchState α)
  | build3d (pendingEdges : List α)
deriving DecidableEq

/-- The attribute lookup self.edge_list performed by BuildSketch.__exit__
at build_sketch.py line 39.  BuildSketch.__init__ assigns exactly the
attributes surface, pending_edges, locations and mode, and no statement
of the class ever assigns edge_list, so the lookup raises AttributeError
on every instance; the absent attribute is rendered none. -/
def edgeListAttr {α : Type} : SketchState α → Option (List α) := fun _ => none

/-- The AttributeError a Python attribute lookup raises when the
attribute does not exist. -/
inductive ExitError
  | attributeError
deriving DecidableEq, Repr

/-- BuildSketch.__exit__ (build_sketch.py lines 35-40): pop the context
stack; if it is non-empty and its new top is the enclosing 3-D builder,
iterate self.edge_list and fold each edge into that builder under
self.mode.  The fold target Build3D.add_to_context is not under src/ and
is Modelled from the spec (append the edges to the top builder's
pending-edge list); the edge_list lookup that precedes it is decided by
src (see edgeListAttr) and fails, so the fold is never reached. -/
def sketchExit {α : Type} (self : SketchState α) (stack0 : List (CtxEntry α)) :
    Except ExitError (List (CtxEntry α)) :=
  match stack0.tail with
  | [] => Except.ok []
  | CtxEntry.sketch t :: rest => Except.ok (CtxEntry.sketch t :: rest)
  | CtxEntry.build3d pend :: rest =>
    match edgeListAttr self with
    | none => Except.error ExitError.attributeError
    | some es => Except.ok (CtxEntry.build3d (pend ++ es) :: rest)

/-! ## Concrete instances for evaluating the embedding -/

instance exceptDecEq {ε σ : Type} [DecidableEq ε] [DecidableEq σ] :
    DecidableEq (Except ε σ) := fun a b =>
  match a, b with
  | Except.ok x, Except.ok y =>
    if h : x = y then isTrue (by rw [h])
    else isFalse (fun hc => h (Except.ok.inj hc))
  | Except.error x, Except.error y =>
    if h : x = y then isTrue (by rw [h])
    else isFalse (fun hc => h (Except.error.inj hc))
  | Except.ok _, Except.error _ => isFalse (fun hc => Except.noConfusion hc)
  | Except.error _, Except.ok _ => isFalse (fun hc => Except.noConfusion hc)

/-- A small executable kernel over natural-number shape handles, used to
evaluate the merge algorithm on concrete inputs.  Topology identities
are chosen injectively per kind. -/
def natKernel : GeomKernel Nat Nat Nat :=
  { fuse := fun a bs => a + bs.sum,
    cut := fun a bs => a - bs.sum,
    intersect := fun a bs => min a bs.sum,
    clean := fun a => a,
    makeCompound := fun bs => bs.sum,
    moved := fun a l => a + l,
    vertexIds := fun a => [4 * a],
    edgeIds := fun a => [4 * a + 1],
    faceIds := fun a => [4 * a + 2],
    solidIds := fun a => [4 * a + 3] }

/-- A one-location placement context. -/
def lctx1 : LocCtx Nat Nat := { locations := [0], planes := [0] }

/-- A fresh builder state: no accumulated part, nothing pending, empty
diffs. -/
def emptyPartState : PartState Nat Nat :=
  { part := none, pending_faces := [], pending_face_planes := [],
    pending_edges := [], pending_edge_planes := [],
    last_vertices := ∅, last_edges := ∅, last_faces := ∅, last_solids := ∅ }

/-- The builder state reached from emptyPartState by an Add merge of the
single solid 2 under natKernel. -/
def mergedPartState : PartState Nat Nat :=
  { part := some 2, pending_faces := [], pending_face_planes := [],
    pending_edges := [], pending_edge_planes := [],
    last_vertices := {8}, last_edges := {9}, last_faces := {10}, last_solids := {11} }

/-- A builder state already holding an accumulated part. -/
def partState7 : PartState Nat Nat :=
  { part := some 7, pending_faces := [], pending_face_planes := [],
    pending_edges := [], pending_edge_planes := [],
    last_vertices := ∅, last_edges := ∅, last_faces := ∅, last_solids := ∅ }

/-- Witness for C3: with no accumulated part and one concrete solid
input, Subtract and Intersect merges raise their respective errors with
the state unchanged. -/
theorem subtract_intersect_require_existing_part_witness :
    addToContext natKernel lctx1 [BObj.solid 2] true Mode.subtract emptyPartState
      = Except.error (MergeError.nothingToSubtractFrom, emptyPartState) ∧
    addToContext natKernel lctx1 [BObj.solid 2] true Mode.intersect emptyPartState
      = Except.error (MergeError.nothingToIntersectWith, emptyPartState) :=
  subtract_intersect_require_existing_part natKernel lctx1 [BObj.solid 2] true
    emptyPartState rfl (by decide) ⟨BObj.solid 2, by decide, by decide⟩

/-- Witness for C4: a concrete Add merge of the solid 2 into an empty
builder yields last-operation diffs equal to the post-minus-pre topology
differences. -/
theorem merge_diff_is_post_minus_pre_witness :
    mergedPartState.last_vertices
      = topoVertices natKernel mergedPartState.part
        \ topoVertices natKernel emptyPartState.part ∧
    mergedPartState.last_edges
      = topoEdges natKernel mergedPartState.part
        \ topoEdges natKernel emptyPartState.part ∧
    mergedPartState.last_faces
      = topoFaces natKernel mergedPartState.part
        \ topoFaces natKernel emptyPartState.part ∧
    mergedPartState.last_solids
      = topoSolids natKernel mergedPartState.part
        \ topoSolids natKernel emptyPartState.part :=
  merge_diff_is_post_minus_pre natKernel lctx1 [BObj.solid 2] true Mode.add
    emptyPartState mergedPartState (by decide) (by decide)

/-- C2 (refuted, code bug): on a builder whose single pending face is
paired with its plane, Extrude's consumption clears both lists and keeps
them the same length, but Loft, Revolve and Sweep clear only
pending_faces (build_part.py lines 602, 654, 792) and leave the paired
pending_face_planes list behind, breaking the equal-length pairing the
claim states; _add_to_pending itself does preserve the pairing. -/
theorem loft_revolve_sweep_break_pending_pairing :
    (addToPendingObjs natKernel.moved lctx1 true [9] emptyPartState).pending_faces.length
      = (addToPendingObjs natKernel.moved lctx1 true [9] emptyPartState).pending_face_planes.length ∧
    (extrudeConsumePending (addToPendingObjs natKernel.moved lctx1 true [9] emptyPartState)).pending_faces.length
      = (extrudeConsumePending (addToPendingObjs natKernel.moved lctx1 true [9] emptyPartState)).pending_face_planes.length ∧
    (loftConsumePending (addToPendingObjs natKernel.moved lctx1 true [9] emptyPartState)).pending_faces.length
      ≠ (loftConsumePending (addToPendingObjs natKernel.moved lctx1 true [9] emptyPartState)).pending_face_planes.length ∧
    (revolveConsumePending (addToPendingObjs natKernel.moved lctx1 true [9] emptyPartState)).pending_faces.length
      ≠ (revolveConsumePending (addToPendingObjs natKernel.moved lctx1 true [9] emptyPartState)).pending_face_planes.length ∧
    (sweepConsumePending (addToPendingObjs natKernel.moved lctx1 true [9] emptyPartState)).pending_faces.length
      ≠ (sweepConsumePending (addToPendingObjs natKernel.moved lctx1 true [9] emptyPartState)).pending_face_planes.length := by
  decide

/-- C8 (refuted, code bug): a BuildPart merge holding an accumulated part
and one new solid, called with a value outside the Mode enumeration,
returns successfully with the builder state completely unchanged — no
boolean combination is performed and no error is raised, although the
docstring of _add_to_context documents a ValueError for an invalid mode
and the sketch-side add_to_context does raise it. -/
theorem invalid_mode_silently_ignored_in_part_merge :
    addToContext natKernel lctx1 [BObj.solid 2] true Mode.other partState7
      = Except.ok partState7 ∧
    sketchAddToContext natKernel [SObj.face 2] Mode.other
        [{ surface := 0, pending_edges := [], mode := Mode.add }]
      = Except.error SketchError.invalidMode := by
  constructor
  · decide
  · decide

/-- A sketch whose scope is about to exit: one accumulated pending edge,
combination mode ADDITION. -/
def exitingSketch : SketchState Nat :=
  { surface := 0, pending_edges := [4], mode := Mode.add }

/-- C6 (refuted, code bug): exiting a sketch builder while an enclosing
3-D builder remains on the context stack raises AttributeError, because
BuildSketch.__exit__ iterates self.edge_list and no code of the class
ever assigns that attribute; the exited sketch's boundary edges are
therefore never folded into the enclosing builder's pending-edge list. -/
theorem sketch_exit_fold_raises_attribute_error :
    sketchExit exitingSketch
        [CtxEntry.sketch exitingSketch, CtxEntry.build3d []]
      = Except.error ExitError.attributeError := by
  decide

end Build123d
